import Mathlib

/-!
Shallow embedding of the `http-client` repository (src/HttpClient.ts,
src/HttpHeader.ts, src/HttpResult.ts) and proofs about its specification.

The TypeScript code is translated as follows: JS values that can flow through
the client (JSON bodies, payloads) become the inductive `JsValue`; the fetch
`Headers` collection becomes an association list; promise resolution inside
`parseResponse` becomes an explicit one-shot "settled" state; the `fetch`
transport is an explicit function argument; clock reads (`new Date()`) become
explicit `Nat` timestamps passed where the code calls the clock.  Body reads
(`response.text()`, `response.json()`, `response.blob()`) are tracked as an
explicit event list so that claims about "the body is not read" are statable.
-/

/-- The payload-type enum of src/HttpClient.ts (`export enum PayloadType`). -/
inductive PayloadType where
  | None
  | Json
  | UrlEncoded
  | MultipartFormData
deriving DecidableEq

/-- The response-type enum of src/HttpClient.ts (`enum ResponseType`). -/
inductive ResponseType where
  | None
  | Json
  | Text
deriving DecidableEq

/-- The HTTP verbs used by the client (from the http-method-enum import). -/
inductive HTTPMethod where
  | GET
  | POST
  | PATCH
  | PUT
  | DELETE
deriving DecidableEq

/-- The string value of an HTTPMethod enum member (http-method-enum maps each
member to its name, e.g. `HTTPMethod.GET = 'GET'`). -/
def HTTPMethod.toStr : HTTPMethod → String
  | .GET => "GET"
  | .POST => "POST"
  | .PATCH => "PATCH"
  | .PUT => "PUT"
  | .DELETE => "DELETE"

namespace HttpHeader

/-- `HttpHeader.ContentType` from src/HttpHeader.ts. -/
def ContentType : String := "Content-Type"

/-- `HttpHeader.ContentDisposition` from src/HttpHeader.ts. -/
def ContentDisposition : String := "Content-Disposition"

/-- `HttpHeader.Authorization` from src/HttpHeader.ts. -/
def Authorization : String := "Authorization"

/-- `HttpHeader.ContentLength` from src/HttpHeader.ts. -/
def ContentLength : String := "Content-Length"

end HttpHeader

namespace HttpContentType

/-- `HttpContentType.Json` from src/HttpHeader.ts. -/
def Json : String := "application/json"

/-- `HttpContentType.FormUrlEncoded` from src/HttpHeader.ts. -/
def FormUrlEncoded : String := "application/x-www-form-urlencoded"

end HttpContentType

/-- JS values flowing through the client: JSON-like data. -/
inductive JsValue where
  | null
  | str (s : String)
  | num (n : Int)
  | obj (fields : List (String × JsValue))

/-- The single-quote character (used by the filename regex and by
`encodeURIComponent`). -/
def squoteChar : Char := Char.ofNat 39

/-- The double-quote character. -/
def dquoteChar : Char := Char.ofNat 34

/-- JS string coercion (`ToString`) for the values above, as applied by
template literals and by `encodeURIComponent` to its argument. -/
def jsToString : JsValue → String
  | .null => "null"
  | .str s => s
  | .num n => toString n
  | .obj _ => "[object Object]"

/-- Uppercase hex digit, as produced by `encodeURIComponent` escapes. -/
def hexDigit (n : Nat) : Char :=
  if n < 10 then Char.ofNat (48 + n) else Char.ofNat (55 + n)

/-- Two-digit uppercase hex rendering of a byte. -/
def hexByte (b : Nat) : String :=
  String.mk [hexDigit (b / 16), hexDigit (b % 16)]

/-- UTF-8 bytes of a character (ECMA-262 encodeURIComponent encodes each code
point as UTF-8 before percent-escaping). -/
def utf8Bytes (c : Char) : List Nat :=
  let n := c.toNat
  if n < 128 then [n]
  else if n < 2048 then [192 + n / 64, 128 + n % 64]
  else if n < 65536 then [224 + n / 4096, 128 + (n / 64) % 64, 128 + n % 64]
  else [240 + n / 262144, 128 + (n / 4096) % 64, 128 + (n / 64) % 64, 128 + n % 64]

/-- The character set left unescaped by `encodeURIComponent`
(ECMA-262: ASCII alphanumerics and `-_.!~*'()`). -/
def uriUnescaped (c : Char) : Bool :=
  (65 ≤ c.toNat && c.toNat ≤ 90) || (97 ≤ c.toNat && c.toNat ≤ 122) ||
  (48 ≤ c.toNat && c.toNat ≤ 57) ||
  c == '-' || c == '_' || c == '.' || c == '!' || c == '~' || c == '*' ||
  c == squoteChar || c == '(' || c == ')'

/-- Model of the JS builtin `encodeURIComponent`, used by
`HttpClient.encodePayload` on UrlEncoded values. -/
def encodeURIComponent (s : String) : String :=
  s.data.foldl
    (fun acc c =>
      acc ++ (if uriUnescaped c then String.mk [c]
              else String.join ((utf8Bytes c).map (fun b => "%" ++ hexByte b))))
    ""

/-- JSON string escaping as performed by `JSON.stringify`. -/
def jsonEscapeChar (c : Char) : String :=
  if c == dquoteChar then "\\\""
  else if c == '\\' then "\\\\"
  else if c == '\n' then "\\n"
  else if c == '\r' then "\\r"
  else if c == '\t' then "\\t"
  else if c.toNat < 32 then "\\u00" ++ hexByte c.toNat
  else String.mk [c]

/-- JSON string escaping lifted to strings. -/
def jsonEscape (s : String) : String :=
  s.data.foldl (fun acc c => acc ++ jsonEscapeChar c) ""

mutual

/-- Model of `JSON.stringify` on the representable values. -/
def jsonStringify : JsValue → String
  | .null => "null"
  | .str s => "\x22" ++ jsonEscape s ++ "\x22"
  | .num n => toString n
  | .obj fields => "\x7b" ++ jsonStringifyFields fields ++ "\x7d"

/-- Renders the comma-separated field list of a JSON object. -/
def jsonStringifyFields : List (String × JsValue) → String
  | [] => ""
  | [(k, v)] => "\x22" ++ jsonEscape k ++ "\x22:" ++ jsonStringify v
  | (k, v) :: rest =>
      "\x22" ++ jsonEscape k ++ "\x22:" ++ jsonStringify v ++ "," ++
      jsonStringifyFields rest

end

/-- The fields of an object value; the UrlEncoded cast
(`payload as { [key: string]: string }`) applies `Object.keys` enumeration to
the payload object, which we model as its field list in order. -/
def JsValue.asObjFields : JsValue → List (String × JsValue)
  | .obj fields => fields
  | _ => []

/-- Header collections (the fetch `Headers` object): an ordered list of
name/value pairs; `append` adds at the end. -/
abbrev HeadersT := List (String × String)

namespace HttpClient

/-- Model of `HttpClient.encodePayload` (src/HttpClient.ts lines 296-318):
Json stringifies; UrlEncoded iterates `Object.keys`, separating accumulated
pairs with an ampersand once `values` is nonempty, and percent-encodes only
the value of each pair; every other payload type falls to the default branch,
which returns the payload cast to a string. -/
def encodePayload (payload : JsValue) (payloadType : PayloadType) : String :=
  match payloadType with
  | .Json => jsonStringify payload
  | .UrlEncoded =>
      let dict := payload.asObjFields
      dict.foldl
        (fun values kv =>
          (if values.length > 0 then values ++ "&" else values) ++
            kv.1 ++ "=" ++ encodeURIComponent (jsToString kv.2))
        ""
  | _ => jsToString payload

/-- Model of `HttpClient.buildRequestHeaders` (src/HttpClient.ts lines
222-249): start from the supplied headers (or a fresh empty collection) and
append a Content-Type only for Json and UrlEncoded payloads. -/
def buildRequestHeaders (payloadType : PayloadType) (headers : Option HeadersT) :
    HeadersT :=
  let requestHeaders := headers.getD []
  match payloadType with
  | .Json => requestHeaders ++ [(HttpHeader.ContentType, HttpContentType.Json)]
  | .UrlEncoded =>
      requestHeaders ++ [(HttpHeader.ContentType, HttpContentType.FormUrlEncoded)]
  | .MultipartFormData => requestHeaders
  | .None => requestHeaders

end HttpClient

/-- `IHttpRequest` from src/HttpResult.ts. -/
structure IHttpRequest where
  method : String
  url : String
deriving DecidableEq

/-- The `HttpResult<T>` envelope from src/HttpResult.ts.  Timestamps are
explicit `Nat` milliseconds (the values of the `new Date()` clock reads);
fields that are `undefined` until assigned (`completedAt?`, `duration?`, and
the definitely-assigned-later `data!`) are `Option`s that start out `none`. -/
structure HttpResult (T : Type) where
  request : IHttpRequest
  initiatedAt : Nat
  completedAt : Option Nat
  duration : Option Int
  data : Option T

/-- The `HttpResult` constructor: copies method/url into `request` and
captures `initiatedAt` from the clock; nothing else is set. -/
def HttpResult.create (method url : String) (now : Nat) : HttpResult T :=
  { request := { method := method, url := url }
    initiatedAt := now
    completedAt := none
    duration := none
    data := none }

/-- `HttpResult.applyData` (src/HttpResult.ts lines 31-35): stores the data,
captures `completedAt` from the clock and computes
`duration = completedAt.getTime() - initiatedAt.getTime()`. -/
def HttpResult.applyData (r : HttpResult T) (data : T) (now : Nat) : HttpResult T :=
  { r with
    data := some data
    completedAt := some now
    duration := some ((now : Int) - (r.initiatedAt : Int)) }

/-- The `IFileBlob` interface from src/HttpResult.ts: an optional filename and
a deferred handle to the binary body (the blob promise, modelled as an opaque
identifier). -/
structure IFileBlob where
  filename : Option String
  blob : Nat
deriving DecidableEq

/-- The error object produced by `createHttpError(status, message)`
(http-errors import): it carries the status code and the message. -/
structure HttpError where
  status : Nat
  message : String
deriving DecidableEq

/-- Model of `createHttpError` from the http-errors package. -/
def createHttpError (status : Nat) (message : String) : HttpError :=
  { status := status, message := message }

/-- The errors a request promise can reject with: a transport rejection from
fetch itself, an HttpError built from a non-success status, or a body
decode/read failure. -/
inductive RequestError where
  | transport (e : String)
  | http (e : HttpError)
  | decode (e : String)
deriving DecidableEq

/-- The raw fetch `Response` as consumed by this client: the `ok` flag, the
numeric status, the outcome the `json()` body reader would produce (a parsed
value or a parse/read failure), the string the `text()` reader would produce,
the `Content-Disposition` header lookup result, and an opaque handle standing
for the `blob()` promise. -/
structure RawResponse where
  ok : Bool
  status : Nat
  jsonResult : Except String JsValue
  textBody : String
  contentDisposition : Option String
  blobId : Nat

/-- The three lazy body readers of a response. -/
inductive BodyReader where
  | json
  | text
  | blob
deriving DecidableEq

/-- The state of the promise executor inside `parseResponse` while the
fall-through switch runs: the value the promise has settled with (if any;
a JS promise settles only once, later `resolve` calls are ignored) and the
body readers invoked so far, in order. -/
structure SwitchSt where
  settled : Option (Except String JsValue)
  reads : List BodyReader

/-- A `resolve(v)` call: only the first one takes effect. -/
def tryResolve (s : SwitchSt) (v : Except String JsValue) : SwitchSt :=
  match s.settled with
  | none => { s with settled := some v }
  | some _ => s

namespace HttpClient

/-- The `case ResponseType.Text:` arm: `resolve(response.text())` invokes the
text reader and resolves with the body as a string. -/
def caseTextStep (response : RawResponse) (s : SwitchSt) : SwitchSt :=
  tryResolve { s with reads := s.reads ++ [BodyReader.text] }
    (Except.ok (JsValue.str response.textBody))

/-- The `case ResponseType.Json:` arm: `resolve(response.json())` invokes the
json reader and resolves with the json read outcome (a resolve with a rejected
promise adopts the rejection). -/
def caseJsonStep (response : RawResponse) (s : SwitchSt) : SwitchSt :=
  tryResolve { s with reads := s.reads ++ [BodyReader.json] } response.jsonResult

/-- The `default:` arm: `resolve(null)`. -/
def caseDefaultStep (s : SwitchSt) : SwitchSt :=
  tryResolve s (Except.ok JsValue.null)

/-- The switch of src/HttpClient.ts lines 340-347.  No case ends in `break`
or `return`, so control falls through: entering at Text also runs the Json and
default arms, and entering at Json also runs the default arm.  `ResponseType.None`
matches no case label and enters at `default`. -/
def runSwitch (responseType : ResponseType) (response : RawResponse) : SwitchSt :=
  match responseType with
  | .Text => caseDefaultStep (caseJsonStep response (caseTextStep response ⟨none, []⟩))
  | .Json => caseDefaultStep (caseJsonStep response ⟨none, []⟩)
  | .None => caseDefaultStep ⟨none, []⟩

/-- Model of `HttpClient.parseResponse` (src/HttpClient.ts lines 323-353):
on a non-ok response, reject with `createHttpError` and the templated message
without touching the body; otherwise run the (fall-through) switch and settle
with its first resolved value.  The function returns the settlement outcome
together with the list of body readers invoked.  (After the switch the promise
is always settled, since the default arm resolves; the `getD` default is
unreachable.) -/
def parseResponse (method : HTTPMethod) (responseType : ResponseType)
    (response : RawResponse) : Except RequestError JsValue × List BodyReader :=
  if response.ok then
    let s := runSwitch responseType response
    (match s.settled.getD (Except.ok JsValue.null) with
     | .ok v => Except.ok v
     | .error e => Except.error (RequestError.decode e),
     s.reads)
  else
    (Except.error (RequestError.http (createHttpError response.status
        ("HTTP " ++ method.toStr ++ " request failed with status " ++
          toString response.status))),
     [])

end HttpClient

/-- The request fetch receives: url plus the init object (method, headers,
body). -/
structure RequestData where
  url : String
  method : String
  headers : HeadersT
  body : Option String
deriving DecidableEq

/-- Everything observable about one request operation: the outcome the caller
sees (`result`), the request handed to fetch (`sent`), the body readers
invoked (`reads`), and how many `new HttpResult(...)` constructions the call
performed (`envelopesConstructed`). -/
structure SendOutcome (T : Type) where
  result : Except RequestError (HttpResult T)
  sent : RequestData
  reads : List BodyReader
  envelopesConstructed : Nat

namespace HttpClient

/-- Model of `HttpClient.sendRequest` (src/HttpClient.ts lines 261-288).
The executor first constructs the envelope (`const result = new HttpResult`),
then calls fetch with the built headers and the encoded body (`payloadType ||
PayloadType.None` maps an absent payload type — and `PayloadType.None` itself,
which is falsy — to `PayloadType.None`).  The fetch outcome flows through
`parseResponse`; a successful decode is applied to the envelope, every error
reaches `reject` unmodified.  `transport` is the fetch collaborator; `t1` and
`t2` are the two clock reads (construction and completion). -/
def sendRequest (url : String) (method : HTTPMethod) (responseType : ResponseType)
    (headers : Option HeadersT) (payload : Option JsValue)
    (payloadType : Option PayloadType)
    (transport : RequestData → Except String RawResponse)
    (t1 t2 : Nat) : SendOutcome JsValue :=
  let result := HttpResult.create method.toStr url t1
  let req : RequestData :=
    { url := url
      method := method.toStr
      headers := buildRequestHeaders (payloadType.getD PayloadType.None) headers
      body := payload.map (fun p => encodePayload p (payloadType.getD PayloadType.None)) }
  match transport req with
  | .error e => ⟨Except.error (RequestError.transport e), req, [], 1⟩
  | .ok response =>
    match parseResponse method responseType response with
    | (.error err, reads) => ⟨Except.error err, req, reads, 1⟩
    | (.ok data, reads) => ⟨Except.ok (result.applyData data t2), req, reads, 1⟩

/-- `HttpClient.get` (lines 33-43). -/
def get (url : String) (headers : Option HeadersT)
    (transport : RequestData → Except String RawResponse) (t1 t2 : Nat) :
    SendOutcome JsValue :=
  sendRequest url HTTPMethod.GET ResponseType.Json headers none none transport t1 t2

/-- `HttpClient.post` (lines 52-65). -/
def post (url : String) (payload : JsValue) (headers : Option HeadersT)
    (transport : RequestData → Except String RawResponse) (t1 t2 : Nat) :
    SendOutcome JsValue :=
  sendRequest url HTTPMethod.POST ResponseType.Json headers (some payload)
    (some PayloadType.Json) transport t1 t2

/-- `HttpClient.patch` (lines 74-87). -/
def patch (url : String) (payload : JsValue) (headers : Option HeadersT)
    (transport : RequestData → Except String RawResponse) (t1 t2 : Nat) :
    SendOutcome JsValue :=
  sendRequest url HTTPMethod.PATCH ResponseType.Json headers (some payload)
    (some PayloadType.Json) transport t1 t2

/-- `HttpClient.put` (lines 96-109). -/
def put (url : String) (payload : JsValue) (headers : Option HeadersT)
    (transport : RequestData → Except String RawResponse) (t1 t2 : Nat) :
    SendOutcome JsValue :=
  sendRequest url HTTPMethod.PUT ResponseType.Json headers (some payload)
    (some PayloadType.Json) transport t1 t2

/-- `HttpClient.delete` (lines 117-124). -/
def delete (url : String) (headers : Option HeadersT)
    (transport : RequestData → Except String RawResponse) (t1 t2 : Nat) :
    SendOutcome JsValue :=
  sendRequest url HTTPMethod.DELETE ResponseType.Json headers none none transport t1 t2

/-- `HttpClient.postFormUrlEncoded` (lines 133-146). -/
def postFormUrlEncoded (url : String) (form : JsValue) (headers : Option HeadersT)
    (transport : RequestData → Except String RawResponse) (t1 t2 : Nat) :
    SendOutcome JsValue :=
  sendRequest url HTTPMethod.POST ResponseType.Json headers (some form)
    (some PayloadType.UrlEncoded) transport t1 t2

/-- `HttpClient.postMultipartFormData` (lines 155-168). -/
def postMultipartFormData (url : String) (payload : JsValue) (headers : Option HeadersT)
    (transport : RequestData → Except String RawResponse) (t1 t2 : Nat) :
    SendOutcome JsValue :=
  sendRequest url HTTPMethod.POST ResponseType.Json headers (some payload)
    (some PayloadType.MultipartFormData) transport t1 t2

end HttpClient

/-- Pattern prefix check over character lists (the literal-matching core of the
regex engine: a pattern piece matches at a position iff it matches the
characters there one by one). -/
def startsWithChars : List Char → List Char → Bool
  | [], _ => true
  | _ :: _, [] => false
  | p :: ps, c :: cs => p == c && startsWithChars ps cs

/-- Substring containment, as tested by `disposition.indexOf('attachment')
!== -1`: the pattern matches at some position of the string. -/
def hasSubstr (pat : List Char) : List Char → Bool
  | [] => startsWithChars pat []
  | c :: cs => startsWithChars pat (c :: cs) || hasSubstr pat cs

/-- The characters of the literal piece `filename` of the filename regex. -/
def filenameChars : List Char := ['f', 'i', 'l', 'e', 'n', 'a', 'm', 'e']

/-- The characters of the literal `attachment` searched with `indexOf`. -/
def attachmentChars : List Char := ['a', 't', 't', 'a', 'c', 'h', 'm', 'e', 'n', 't']

/-- Whether a character is one of the quote characters matched by `['"]`. -/
def isQuoteChar (c : Char) : Bool := c == squoteChar || c == dquoteChar

/-- JS line terminators, which `.` (without the s flag) does not match. -/
def isLineTerm (c : Char) : Bool :=
  c == '\n' || c == '\r' || c == Char.ofNat 8232 || c == Char.ofNat 8233

/-- The character class `[^;=\n]` of the regex. -/
def notSemiEqNl (c : Char) : Bool := !(c == ';') && !(c == '=') && !(c == '\n')

/-- The character class `[^;\n]` of the regex. -/
def notSemiNl (c : Char) : Bool := !(c == ';') && !(c == '\n')

/-- The lazy quoted alternative `.*?\2`: consume the shortest run of
non-line-terminator characters up to a closing quote equal to the opening one;
fail if a line terminator (or the end of input) comes first. -/
def lazyClose (q : Char) : List Char → Option (List Char)
  | [] => none
  | c :: cs =>
      if c == q then some []
      else if isLineTerm c then none
      else (lazyClose q cs).map (fun inner => c :: inner)

/-- Capture group 1 of `/filename[^;=\n]*=((['"]).*?\2|[^;\n]*)/`, matched
against the text after the `=`: first try the quoted alternative (the group
then includes both quotes); if it fails, backtrack to the unquoted alternative
`[^;\n]*`, a greedy (possibly empty) run. -/
def matchGroup (tail : List Char) : List Char :=
  match tail with
  | [] => []
  | c :: cs =>
      if isQuoteChar c then
        match lazyClose c cs with
        | some inner => c :: (inner ++ [c])
        | none => List.takeWhile notSemiNl (c :: cs)
      else List.takeWhile notSemiNl (c :: cs)

/-- `exec` of the filename regex: scan left to right for a position where the
literal `filename` matches; there `[^;=\n]*` greedily consumes its maximal run
(the class excludes `=`, so backtracking cannot shorten it), and the run must
be followed by `=`; then group 1 is captured.  If the `=` is not there the
scan resumes one character further on. -/
def findFilenameMatch : List Char → Option (List Char)
  | [] => none
  | c :: cs =>
      if startsWithChars filenameChars (c :: cs) then
        let after := List.dropWhile notSemiEqNl (List.drop 8 (c :: cs))
        match after with
        | '=' :: tail => some (matchGroup tail)
        | _ => findFilenameMatch cs
      else findFilenameMatch cs

namespace HttpClient

/-- Model of `HttpClient.extractFileName` (src/HttpClient.ts lines 358-370).
The argument is the `Content-Disposition` header lookup result (`none` models
the `null` that `response.headers.get` returns for a missing header; the JS
truthiness test also rejects the empty string).  When the disposition contains
`attachment`, the filename regex is executed; a nonempty capture has every
quote character removed by `replace` and becomes the result. -/
def extractFileName (disposition : Option String) : Option String :=
  match disposition with
  | none => none
  | some d =>
      if d.data.isEmpty then none
      else if hasSubstr attachmentChars d.data then
        match findFilenameMatch d.data with
        | some g1 =>
            if g1.isEmpty then none
            else some (String.mk (List.filter (fun c => !(isQuoteChar c)) g1))
        | none => none
      else none

/-- Model of `HttpClient.downloadFile` (src/HttpClient.ts lines 176-200).
The executor constructs the envelope, calls fetch with headers built for
`PayloadType.None` and no body and no explicit method (fetch defaults to GET);
a non-ok response throws `createHttpError(status, 'Failed to download file.')`
which the promise chain turns into a rejection; otherwise the filename is
extracted from the disposition header, `response.blob()` is invoked, and the
envelope is completed with the file blob. -/
def downloadFile (url : String) (headers : Option HeadersT)
    (transport : RequestData → Except String RawResponse)
    (t1 t2 : Nat) : SendOutcome IFileBlob :=
  let result := HttpResult.create "GET" url t1
  let req : RequestData :=
    { url := url
      method := "GET"
      headers := buildRequestHeaders PayloadType.None headers
      body := none }
  match transport req with
  | .error e => ⟨Except.error (RequestError.transport e), req, [], 1⟩
  | .ok response =>
      if response.ok then
        let filename := extractFileName response.contentDisposition
        ⟨Except.ok (result.applyData
            { filename := filename, blob := response.blobId } t2),
          req, [BodyReader.blob], 1⟩
      else
        ⟨Except.error (RequestError.http
            (createHttpError response.status "Failed to download file.")),
          req, [], 1⟩

end HttpClient

/-- The observable states of a bluebird promise handle
(pending / fulfilled / rejected / cancelled). -/
inductive HandleState where
  | pending
  | fulfilled
  | rejected
  | cancelled
deriving DecidableEq

/-- `promise.isPending()`. -/
def HandleState.isPending : HandleState → Bool
  | .pending => true
  | _ => false

/-- `promise.cancel()`: cancels a pending promise; settled or already
cancelled promises are unaffected. -/
def HandleState.cancel : HandleState → HandleState
  | .pending => .cancelled
  | s => s

namespace HttpClient

/-- Model of `HttpClient.safeCancelRequest` (src/HttpClient.ts lines 208-214):
if a handle was supplied (JS truthiness: `none` models an absent argument) and
it is still pending, cancel it; in every case the returned value is
`undefined`, modelled as the `none` of an `Option Unit`.  The result pairs the
handle state afterwards with the returned value. -/
def safeCancelRequest (requestPromise : Option HandleState) :
    Option HandleState × Option Unit :=
  match requestPromise with
  | some s => if s.isPending then (some s.cancel, none) else (some s, none)
  | none => (none, none)

end HttpClient

/-- Modelled from the spec side of §4.2: one `key=value` pair of the
UrlEncoded wire form — the key is used as is, the value is run through
`encodeURIComponent` after JS string coercion. -/
def urlSeg (kv : String × JsValue) : String :=
  kv.1 ++ "=" ++ encodeURIComponent (jsToString kv.2)

/-- The tail of an ampersand-join: every element prefixed with `&`. -/
def joinAmpTail : List String → String
  | [] => ""
  | s :: ss => "&" ++ s ++ joinAmpTail ss

/-- Modelled from the spec side of §4.2: pieces joined by `&`. -/
def joinAmp : List String → String
  | [] => ""
  | s :: ss => s ++ joinAmpTail ss

/-! ## Theorems -/

/-- Helper: the request `sendRequest` hands to fetch, independent of the
transport outcome. -/
theorem sendRequest_sent (url : String) (method : HTTPMethod)
    (responseType : ResponseType) (headers : Option HeadersT)
    (payload : Option JsValue) (payloadType : Option PayloadType)
    (transport : RequestData → Except String RawResponse) (t1 t2 : Nat) :
    (HttpClient.sendRequest url method responseType headers payload payloadType
        transport t1 t2).sent
      = { url := url
          method := method.toStr
          headers := HttpClient.buildRequestHeaders (payloadType.getD PayloadType.None) headers
          body := payload.map
            (fun p => HttpClient.encodePayload p (payloadType.getD PayloadType.None)) } := by
  unfold HttpClient.sendRequest
  dsimp only
  split
  · rfl
  · split <;> rfl

/-- Helper: the request `downloadFile` hands to fetch. -/
theorem downloadFile_sent (url : String) (headers : Option HeadersT)
    (transport : RequestData → Except String RawResponse) (t1 t2 : Nat) :
    (HttpClient.downloadFile url headers transport t1 t2).sent
      = { url := url
          method := "GET"
          headers := HttpClient.buildRequestHeaders PayloadType.None headers
          body := none } := by
  unfold HttpClient.downloadFile
  dsimp only
  split
  · rfl
  · split <;> rfl

/-- C5: buildRequestHeaders starts from the supplied header set (or a fresh
empty one) and appends exactly one `Content-Type` header for Json
(`application/json`) and UrlEncoded (`application/x-www-form-urlencoded`),
and nothing for None or MultipartFormData. -/
theorem buildRequestHeaders_spec :
    (∀ h : HeadersT,
      HttpClient.buildRequestHeaders PayloadType.Json (some h)
        = h ++ [(HttpHeader.ContentType, HttpContentType.Json)] ∧
      HttpClient.buildRequestHeaders PayloadType.UrlEncoded (some h)
        = h ++ [(HttpHeader.ContentType, HttpContentType.FormUrlEncoded)] ∧
      HttpClient.buildRequestHeaders PayloadType.None (some h) = h ∧
      HttpClient.buildRequestHeaders PayloadType.MultipartFormData (some h) = h) ∧
    HttpClient.buildRequestHeaders PayloadType.Json none
      = [(HttpHeader.ContentType, HttpContentType.Json)] ∧
    HttpClient.buildRequestHeaders PayloadType.UrlEncoded none
      = [(HttpHeader.ContentType, HttpContentType.FormUrlEncoded)] ∧
    HttpClient.buildRequestHeaders PayloadType.None none = [] ∧
    HttpClient.buildRequestHeaders PayloadType.MultipartFormData none = [] :=
  ⟨fun _h => ⟨rfl, rfl, rfl, rfl⟩, rfl, rfl, rfl, rfl⟩

/-- C8: safeCancelRequest always returns undefined; a pending handle is
cancelled, while an absent, settled (fulfilled or rejected) or already
cancelled handle is left untouched. -/
theorem safeCancelRequest_spec :
    (∀ h : Option HandleState, (HttpClient.safeCancelRequest h).2 = none) ∧
    HttpClient.safeCancelRequest (some HandleState.pending)
      = (some HandleState.cancelled, none) ∧
    HttpClient.safeCancelRequest none = (none, none) ∧
    HttpClient.safeCancelRequest (some HandleState.fulfilled)
      = (some HandleState.fulfilled, none) ∧
    HttpClient.safeCancelRequest (some HandleState.rejected)
      = (some HandleState.rejected, none) ∧
    HttpClient.safeCancelRequest (some HandleState.cancelled)
      = (some HandleState.cancelled, none) := by
  refine ⟨fun h => ?_, rfl, rfl, rfl, rfl, rfl⟩
  match h with
  | none => rfl
  | some s => cases s <;> rfl

/-- C1 (code bug): on a successful response with responseType Text the switch
of `parseResponse` falls through — it invokes the text reader and then also
the json reader; only the first `resolve` wins, so the settled value is still
the text body.  The claimed short-circuit (text reader only) does not hold. -/
theorem parseResponse_text_fallthrough :
    HttpClient.parseResponse HTTPMethod.GET ResponseType.Text
      { ok := true, status := 200, jsonResult := Except.ok JsValue.null,
        textBody := "hello", contentDisposition := none, blobId := 0 }
      = (Except.ok (JsValue.str "hello"), [BodyReader.text, BodyReader.json]) := rfl

/-- C2: for every method and response type, a non-ok response makes the
decoder reject with an HttpError carrying the status and the message
`HTTP {method} request failed with status {status}`, and no body reader is
invoked. -/
theorem parseResponse_failure_status (method : HTTPMethod)
    (responseType : ResponseType) (response : RawResponse)
    (h : response.ok = false) :
    HttpClient.parseResponse method responseType response
      = (Except.error (RequestError.http (createHttpError response.status
          ("HTTP " ++ method.toStr ++ " request failed with status " ++
            toString response.status))), []) := by
  simp [HttpClient.parseResponse, h]

/-- Witness for C2 at method POST and a concrete 404 response. -/
theorem parseResponse_failure_status_witness :
    HttpClient.parseResponse HTTPMethod.POST ResponseType.Json
      { ok := false, status := 404, jsonResult := Except.ok JsValue.null,
        textBody := "", contentDisposition := none, blobId := 0 }
      = (Except.error (RequestError.http (createHttpError 404
          ("HTTP " ++ HTTPMethod.POST.toStr ++ " request failed with status " ++
            toString (404 : Nat)))), [])
    ∧ ("HTTP " ++ HTTPMethod.POST.toStr ++ " request failed with status " ++
        toString (404 : Nat)) = "HTTP POST request failed with status 404" :=
  ⟨parseResponse_failure_status HTTPMethod.POST ResponseType.Json _ rfl, by decide⟩

/-- Helper for C4: once the accumulator is nonempty, the UrlEncoded fold
appends `&`-prefixed segments. -/
theorem urlEncoded_foldl_acc (fs : List (String × JsValue)) :
    ∀ acc : String, 0 < acc.length →
      List.foldl
        (fun values kv =>
          (if values.length > 0 then values ++ "&" else values) ++
            kv.1 ++ "=" ++ encodeURIComponent (jsToString kv.2))
        acc fs
      = acc ++ joinAmpTail (fs.map urlSeg) := by
  induction fs with
  | nil =>
    intro acc _h
    simp [joinAmpTail, String.append_empty]
  | cons kv fs ih =>
    intro acc h
    rw [List.foldl_cons, if_pos h, List.map_cons, joinAmpTail]
    rw [ih (acc ++ "&" ++ kv.1 ++ "=" ++ encodeURIComponent (jsToString kv.2))
      (by simp [String.length_append]; omega)]
    simp [urlSeg, String.append_assoc]

/-- C4: encoding a flat mapping as UrlEncoded yields the `key=value` pairs in
field-enumeration order joined by `&`, where each value is percent-encoded
(`urlSeg` leaves the key untouched and applies `encodeURIComponent` to the
value only); in particular `a: 1, b: "x y"` encodes to `a=1&b=x%20y`. -/
theorem encodePayload_urlEncoded_spec (fields : List (String × JsValue)) :
    HttpClient.encodePayload (JsValue.obj fields) PayloadType.UrlEncoded
      = joinAmp (fields.map urlSeg)
    ∧ HttpClient.encodePayload
        (JsValue.obj [("a", JsValue.num 1), ("b", JsValue.str "x y")])
        PayloadType.UrlEncoded = "a=1&b=x%20y" := by
  constructor
  · cases fields with
    | nil => rfl
    | cons kv fs =>
      show List.foldl _ "" (kv :: fs) = _
      rw [List.foldl_cons]
      have hfirst :
          (if ("" : String).length > 0 then ("" : String) ++ "&" else "") ++
              kv.1 ++ "=" ++ encodeURIComponent (jsToString kv.2)
            = urlSeg kv := by
        simp [urlSeg]
      rw [hfirst, List.map_cons, joinAmp,
        urlEncoded_foldl_acc fs (urlSeg kv)
          (by simp [urlSeg, String.length_append]; left; right; decide)]
  · decide

/-- C3 (counterexample): on a transport rejection the operation rejects with
that error unmodified and returns no envelope — but an envelope IS constructed
(`const result = new HttpResult(method, url)` runs before fetch), so the
claimed "no envelope is ever constructed" is false. -/
theorem sendRequest_constructs_envelope_on_failure :
    (HttpClient.sendRequest "http://x" HTTPMethod.GET ResponseType.Json none none none
        (fun _x => Except.error "ECONNREFUSED") 0 0).result
      = Except.error (RequestError.transport "ECONNREFUSED")
    ∧ (HttpClient.sendRequest "http://x" HTTPMethod.GET ResponseType.Json none none none
        (fun _x => Except.error "ECONNREFUSED") 0 0).envelopesConstructed = 1 :=
  ⟨rfl, rfl⟩

/-- C3 (amended): an envelope is returned iff the whole pipeline succeeds
(transport delivered a response and the decoder settled successfully); a
transport rejection and any decoder rejection (non-success status or decode
failure) each propagate to the caller unmodified, and then no envelope is
returned — though one was eagerly constructed and discarded. -/
theorem sendRequest_envelope_iff_success (url : String) (method : HTTPMethod)
    (responseType : ResponseType) (headers : Option HeadersT)
    (payload : Option JsValue) (payloadType : Option PayloadType)
    (transport : RequestData → Except String RawResponse) (t1 t2 : Nat) :
    ((∃ env, (HttpClient.sendRequest url method responseType headers payload
          payloadType transport t1 t2).result = Except.ok env)
      ↔ ∃ response v,
          transport (HttpClient.sendRequest url method responseType headers payload
            payloadType transport t1 t2).sent = Except.ok response
          ∧ (HttpClient.parseResponse method responseType response).1 = Except.ok v)
    ∧ (∀ e, transport (HttpClient.sendRequest url method responseType headers payload
          payloadType transport t1 t2).sent = Except.error e →
        (HttpClient.sendRequest url method responseType headers payload
          payloadType transport t1 t2).result = Except.error (RequestError.transport e))
    ∧ (∀ response err,
        transport (HttpClient.sendRequest url method responseType headers payload
          payloadType transport t1 t2).sent = Except.ok response →
        (HttpClient.parseResponse method responseType response).1 = Except.error err →
        (HttpClient.sendRequest url method responseType headers payload
          payloadType transport t1 t2).result = Except.error err) := by
  rw [sendRequest_sent url method responseType headers payload payloadType transport t1 t2]
  cases hT : transport
      { url := url
        method := method.toStr
        headers := HttpClient.buildRequestHeaders (payloadType.getD PayloadType.None) headers
        body := payload.map
          (fun p => HttpClient.encodePayload p (payloadType.getD PayloadType.None)) } with
  | error e =>
    simp [HttpClient.sendRequest, hT]
  | ok response =>
    rcases hP : HttpClient.parseResponse method responseType response with ⟨p1, reads⟩
    cases p1 with
    | error err =>
      simp only [HttpClient.sendRequest, hT, hP]
      refine ⟨?_, ?_, ?_⟩
      · simp [hP]
      · intro e he
        exact absurd he (by simp)
      · intro r1 e1 hr hp1
        rw [Except.ok.inj hr] at hP
        rw [hP] at hp1
        exact (Except.error.inj hp1).symm ▸ rfl
    | ok v =>
      simp only [HttpClient.sendRequest, hT, hP]
      refine ⟨?_, ?_, ?_⟩
      · simp [hP]
      · intro e he
        exact absurd he (by simp)
      · intro r1 e1 hr hp1
        rw [Except.ok.inj hr] at hP
        rw [hP] at hp1
        exact absurd hp1 (by simp)

/-- Witness for C3 at a concrete transport rejection. -/
theorem sendRequest_envelope_iff_success_witness :
    (HttpClient.sendRequest "u" HTTPMethod.GET ResponseType.Json none none none
        (fun _x => Except.error "boom") 1 2).result
      = Except.error (RequestError.transport "boom") := by
  have h := sendRequest_envelope_iff_success "u" HTTPMethod.GET ResponseType.Json
    none none none (fun _x => Except.error "boom") 1 2
  exact h.2.1 "boom" rfl

/-- C6 (counterexample): a successfully returned envelope whose two clock
reads fall in the same millisecond has `completedAt = initiatedAt` (and
duration 0), so `completedAt > initiatedAt` does not hold on every successful
envelope. -/
theorem httpResult_strict_increase_cex :
    (HttpClient.sendRequest "u" HTTPMethod.GET ResponseType.Json none none none
        (fun _x => Except.ok
          { ok := true, status := 200, jsonResult := Except.ok JsValue.null,
            textBody := "", contentDisposition := none, blobId := 0 }) 5 5).result
      = Except.ok
          { request := { method := "GET", url := "u" }
            initiatedAt := 5
            completedAt := some 5
            duration := some 0
            data := some JsValue.null }
    ∧ ¬ (5 : Nat) < 5 :=
  ⟨rfl, by omega⟩

/-- C6 (amended): the constructor captures `initiatedAt` and leaves
`completedAt`, `duration` and `data` absent; `applyData` sets the data, the
completion time and `duration = completedAt - initiatedAt` in one operation;
when the completion clock read is not earlier than the construction read
(monotone clock), `completedAt ≥ initiatedAt` and the duration is
non-negative — equality is possible, strict increase is not guaranteed. -/
theorem httpResult_lifecycle {T : Type} (m url : String) (t1 t2 : Nat) (d : T)
    (r : HttpResult T) (h : t1 ≤ t2) :
    (HttpResult.create m url t1 : HttpResult T).request = { method := m, url := url } ∧
    (HttpResult.create m url t1 : HttpResult T).initiatedAt = t1 ∧
    (HttpResult.create m url t1 : HttpResult T).completedAt = none ∧
    (HttpResult.create m url t1 : HttpResult T).duration = none ∧
    (HttpResult.create m url t1 : HttpResult T).data = none ∧
    (r.applyData d t2).data = some d ∧
    (r.applyData d t2).completedAt = some t2 ∧
    (r.applyData d t2).duration = some ((t2 : Int) - (r.initiatedAt : Int)) ∧
    ((HttpResult.create m url t1).applyData d t2).completedAt = some t2 ∧
    t1 ≤ t2 ∧
    ((HttpResult.create m url t1).applyData d t2).duration
      = some ((t2 : Int) - (t1 : Int)) ∧
    0 ≤ (t2 : Int) - (t1 : Int) :=
  ⟨rfl, rfl, rfl, rfl, rfl, rfl, rfl, rfl, rfl, h, rfl, by omega⟩

/-- Witness for C6 at concrete clock reads 3 and 5. -/
theorem httpResult_lifecycle_witness :
    ((HttpResult.create "GET" "u" 3).applyData (7 : Nat) 5).completedAt = some 5 ∧
    ((HttpResult.create "GET" "u" 3).applyData (7 : Nat) 5).duration
      = some (((5 : Nat) : Int) - ((3 : Nat) : Int)) ∧
    (0 : Int) ≤ ((5 : Nat) : Int) - ((3 : Nat) : Int) := by
  have h := httpResult_lifecycle (T := Nat) "GET" "u" 3 5 7
    (HttpResult.create "GET" "u" 3) (by omega)
  exact ⟨h.2.2.2.2.2.2.2.2.1, h.2.2.2.2.2.2.2.2.2.2.1, h.2.2.2.2.2.2.2.2.2.2.2⟩

/-- C9: each public operation selects exactly the tabulated payload-type /
response-type pair — get and delete send no payload with ResponseType.Json;
post, patch and put send a Json payload; postFormUrlEncoded sends UrlEncoded;
postMultipartFormData sends MultipartFormData; downloadFile sends no body and
follows the custom blob-plus-filename path. -/
theorem operation_table_spec (url : String) (payload : JsValue)
    (headers : Option HeadersT) (transport : RequestData → Except String RawResponse)
    (t1 t2 : Nat) :
    HttpClient.get url headers transport t1 t2
      = HttpClient.sendRequest url HTTPMethod.GET ResponseType.Json headers
          none none transport t1 t2
    ∧ HttpClient.delete url headers transport t1 t2
      = HttpClient.sendRequest url HTTPMethod.DELETE ResponseType.Json headers
          none none transport t1 t2
    ∧ HttpClient.post url payload headers transport t1 t2
      = HttpClient.sendRequest url HTTPMethod.POST ResponseType.Json headers
          (some payload) (some PayloadType.Json) transport t1 t2
    ∧ HttpClient.patch url payload headers transport t1 t2
      = HttpClient.sendRequest url HTTPMethod.PATCH ResponseType.Json headers
          (some payload) (some PayloadType.Json) transport t1 t2
    ∧ HttpClient.put url payload headers transport t1 t2
      = HttpClient.sendRequest url HTTPMethod.PUT ResponseType.Json headers
          (some payload) (some PayloadType.Json) transport t1 t2
    ∧ HttpClient.postFormUrlEncoded url payload headers transport t1 t2
      = HttpClient.sendRequest url HTTPMethod.POST ResponseType.Json headers
          (some payload) (some PayloadType.UrlEncoded) transport t1 t2
    ∧ HttpClient.postMultipartFormData url payload headers transport t1 t2
      = HttpClient.sendRequest url HTTPMethod.POST ResponseType.Json headers
          (some payload) (some PayloadType.MultipartFormData) transport t1 t2
    ∧ (HttpClient.get url headers transport t1 t2).sent.body = none
    ∧ (HttpClient.delete url headers transport t1 t2).sent.body = none
    ∧ (HttpClient.post url payload headers transport t1 t2).sent.body
        = some (HttpClient.encodePayload payload PayloadType.Json)
    ∧ (HttpClient.postFormUrlEncoded url payload headers transport t1 t2).sent.body
        = some (HttpClient.encodePayload payload PayloadType.UrlEncoded)
    ∧ (HttpClient.postMultipartFormData url payload headers transport t1 t2).sent.body
        = some (HttpClient.encodePayload payload PayloadType.MultipartFormData)
    ∧ (HttpClient.downloadFile url headers transport t1 t2).sent.body = none
    ∧ (HttpClient.downloadFile url headers transport t1 t2).sent.headers
        = HttpClient.buildRequestHeaders PayloadType.None headers
    ∧ (∀ response : RawResponse,
        (HttpClient.downloadFile url headers (fun _x => Except.ok response) t1 t2).result
          = if response.ok then
              Except.ok ((HttpResult.create "GET" url t1).applyData
                { filename := HttpClient.extractFileName response.contentDisposition,
                  blob := response.blobId } t2)
            else Except.error (RequestError.http
                (createHttpError response.status "Failed to download file."))) := by
  refine ⟨rfl, rfl, rfl, rfl, rfl, rfl, rfl, ?_, ?_, ?_, ?_, ?_, ?_, ?_, ?_⟩
  · simp [HttpClient.get, sendRequest_sent]
  · simp [HttpClient.delete, sendRequest_sent]
  · simp [HttpClient.post, sendRequest_sent]
  · simp [HttpClient.postFormUrlEncoded, sendRequest_sent]
  · simp [HttpClient.postMultipartFormData, sendRequest_sent]
  · simp [downloadFile_sent]
  · simp [downloadFile_sent]
  · intro response
    cases hok : response.ok <;> simp [HttpClient.downloadFile, hok]

/-- C10: a non-success status makes downloadFile reject with an HttpError
carrying that status and the fixed message `Failed to download file.` — which
differs from the generic decoder message — and no body reader is invoked. -/
theorem downloadFile_failure_spec (url : String) (headers : Option HeadersT)
    (response : RawResponse) (t1 t2 : Nat) (h : response.ok = false) :
    (HttpClient.downloadFile url headers (fun _x => Except.ok response) t1 t2).result
      = Except.error (RequestError.http
          (createHttpError response.status "Failed to download file."))
    ∧ (HttpClient.downloadFile url headers (fun _x => Except.ok response) t1 t2).reads = []
    ∧ "Failed to download file."
        ≠ "HTTP " ++ HTTPMethod.GET.toStr ++ " request failed with status " ++
            toString response.status := by
  refine ⟨?_, ?_, ?_⟩
  · simp [HttpClient.downloadFile, h]
  · simp [HttpClient.downloadFile, h]
  · intro hEq
    have h2 : some 'F' = some 'H' := congrArg (fun s => s.data.head?) hEq
    exact absurd h2 (by decide)

/-- Witness for C10 at a concrete 500 response. -/
theorem downloadFile_failure_spec_witness :
    (HttpClient.downloadFile "u" none
        (fun _x => Except.ok
          { ok := false, status := 500, jsonResult := Except.ok JsValue.null,
            textBody := "", contentDisposition := none, blobId := 0 }) 0 1).result
      = Except.error (RequestError.http
          (createHttpError 500 "Failed to download file.")) := by
  have h := downloadFile_failure_spec "u" none
    { ok := false, status := 500, jsonResult := Except.ok JsValue.null,
      textBody := "", contentDisposition := none, blobId := 0 } 0 1 rfl
  exact h.1

/-- Helper for C7: the lazy quoted alternative consumes exactly the quote-free,
line-terminator-free run up to the closing quote. -/
theorem lazyClose_append_closing (q : Char) (l : List Char)
    (h : ∀ c ∈ l, (c == q) = false ∧ isLineTerm c = false) :
    lazyClose q (l ++ [q]) = some l := by
  induction l with
  | nil => simp [lazyClose]
  | cons c cs ih =>
    have hc := h c (List.mem_cons_self c cs)
    simp [lazyClose, hc.1, hc.2,
      ih (fun x hx => h x (List.mem_cons_of_mem _ hx))]

/-- C7: the filename extractor returns the filename parameter of the
disposition with its surrounding quotes stripped (for any quote-free,
line-terminator-free name), and returns `undefined` when the header is
missing, when the disposition does not contain `attachment`, or when no
filename parameter is present. -/
theorem extractFileName_spec (name : String)
    (h : ∀ c ∈ name.data, isQuoteChar c = false ∧ isLineTerm c = false) :
    HttpClient.extractFileName
        (some ("attachment; filename=\"" ++ name ++ "\"")) = some name
    ∧ HttpClient.extractFileName none = none
    ∧ (∀ d : String, hasSubstr attachmentChars d.data = false →
        HttpClient.extractFileName (some d) = none)
    ∧ HttpClient.extractFileName (some "attachment") = none
    ∧ HttpClient.extractFileName (some "inline; filename=\"x.pdf\"") = none := by
  refine ⟨?_, rfl, ?_, by decide, by decide⟩
  · have hlc : lazyClose dquoteChar (name.data ++ [dquoteChar]) = some name.data := by
      refine lazyClose_append_closing dquoteChar name.data (fun c hc => ?_)
      have h1 := (h c hc).1
      simp only [isQuoteChar, Bool.or_eq_false_iff] at h1
      exact ⟨h1.2, (h c hc).2⟩
    have hmg : matchGroup (dquoteChar :: (name.data ++ [dquoteChar]))
        = dquoteChar :: (name.data ++ [dquoteChar]) := by
      simp [matchGroup, hlc, isQuoteChar]
    have hext : HttpClient.extractFileName
        (some ("attachment; filename=\"" ++ name ++ "\""))
        = (if (matchGroup (dquoteChar :: (name.data ++ [dquoteChar]))).isEmpty then none
           else some (String.mk (List.filter (fun c => !(isQuoteChar c))
             (matchGroup (dquoteChar :: (name.data ++ [dquoteChar])))))) := rfl
    rw [hext, hmg]
    have hfilter : List.filter (fun c => !(isQuoteChar c))
        (dquoteChar :: (name.data ++ [dquoteChar])) = name.data := by
      have hdq : (fun c => !(isQuoteChar c)) dquoteChar = false := by decide
      rw [List.filter_cons_of_neg (by simpa using hdq), List.filter_append]
      have hself : List.filter (fun c => !(isQuoteChar c)) name.data = name.data := by
        rw [List.filter_eq_self]
        intro c hc
        simp [(h c hc).1]
      rw [hself]
      simp [hdq]
    simp [hfilter]
  · intro d hd
    simp [HttpClient.extractFileName, hd]

/-- Witness for C7 at the concrete disposition of the spec example. -/
theorem extractFileName_spec_witness :
    HttpClient.extractFileName (some "attachment; filename=\"report.pdf\"")
      = some "report.pdf"
    ∧ HttpClient.extractFileName (some "inline; filename=\"x.pdf\"") = none := by
  have h := extractFileName_spec "report.pdf" (by decide)
  refine ⟨?_, h.2.2.2.2⟩
  have h1 := h.1
  rw [show ("attachment; filename=\"" ++ "report.pdf" ++ "\"" : String)
      = "attachment; filename=\"report.pdf\"" from by decide] at h1
  exact h1
